import Mathlib

/-!
# Verification of the 3D sphere-intersection geometry engine

A shallow embedding, over the real numbers, of the geometry computation in
the `Scene` component (file `src/unnamed/part_000`): three fixed anchor
points, one movable point, the three sphere radii, the circle where the
first two spheres intersect, and the trilateration of all three spheres
(radical-plane / line-sphere method).  `THREE.Vector3` operations are
embedded componentwise; `Math.sqrt` is `Real.sqrt`; IEEE doubles are
modelled as exact reals.
-/

/-- A 3-D vector / point, mirroring `THREE.Vector3` and the repository's
`Point3D` record `{x, y, z}`. -/
@[ext]
structure Vec3 where
  x : ℝ
  y : ℝ
  z : ℝ

namespace Vec3

/-- Componentwise addition (`THREE.Vector3.add` / `addVectors`). -/
def add (a b : Vec3) : Vec3 := ⟨a.x + b.x, a.y + b.y, a.z + b.z⟩

/-- Componentwise subtraction (`THREE.Vector3.subVectors`). -/
def sub (a b : Vec3) : Vec3 := ⟨a.x - b.x, a.y - b.y, a.z - b.z⟩

/-- Scalar multiplication (`THREE.Vector3.multiplyScalar`). -/
def smul (s : ℝ) (v : Vec3) : Vec3 := ⟨s * v.x, s * v.y, s * v.z⟩

/-- Dot product (`THREE.Vector3.dot`). -/
def dot (a b : Vec3) : ℝ := a.x * b.x + a.y * b.y + a.z * b.z

/-- Cross product (`THREE.Vector3.crossVectors`). -/
def cross (a b : Vec3) : Vec3 :=
  ⟨a.y * b.z - a.z * b.y, a.z * b.x - a.x * b.z, a.x * b.y - a.y * b.x⟩

/-- Squared length (`THREE.Vector3.lengthSq`). -/
def lengthSq (v : Vec3) : ℝ := v.x * v.x + v.y * v.y + v.z * v.z

/-- Length (`THREE.Vector3.length`). -/
noncomputable def length (v : Vec3) : ℝ := Real.sqrt v.lengthSq

/-- Distance between two points (`THREE.Vector3.distanceTo`). -/
noncomputable def distanceTo (a b : Vec3) : ℝ := (a.sub b).length

/-- Normalization (`THREE.Vector3.normalize`).  For the zero vector both
this definition (via `1/0 = 0` in `ℝ`) and `THREE` (via `length() || 1`)
return the zero vector. -/
noncomputable def normalize (v : Vec3) : Vec3 := smul (1 / v.length) v

/-- Mirror of `THREE.Vector3.addScaledVector`: `a + s • v`. -/
def addScaledVector (a v : Vec3) (s : ℝ) : Vec3 :=
  ⟨a.x + v.x * s, a.y + v.y * s, a.z + v.z * s⟩

/-- Mirror of `divideScalar`: multiplication by the inverse, as in `THREE`. -/
noncomputable def divideScalar (v : Vec3) (s : ℝ) : Vec3 := smul (1 / s) v

end Vec3

namespace Scene

/-- The fixed top anchor `TOP_POINT_POS = (0, 8, 0)`. -/
def TOP_POINT_POS : Vec3 := ⟨0, 8, 0⟩

/-- The fixed left anchor `LEFT_POINT_POS = (-8, 0, 0)`. -/
def LEFT_POINT_POS : Vec3 := ⟨-8, 0, 0⟩

/-- The fixed front anchor `FRONT_POINT_POS = (0, 0, 8)`. -/
def FRONT_POINT_POS : Vec3 := ⟨0, 0, 8⟩

/-- Radius `rTop = TOP_POINT_POS.distanceTo(movablePointVec)`. -/
noncomputable def rTop (P : Vec3) : ℝ := TOP_POINT_POS.distanceTo P

/-- Radius `rLeft = LEFT_POINT_POS.distanceTo(movablePointVec)`. -/
noncomputable def rLeft (P : Vec3) : ℝ := LEFT_POINT_POS.distanceTo P

/-- Radius `rFront = FRONT_POINT_POS.distanceTo(movablePointVec)`. -/
noncomputable def rFront (P : Vec3) : ℝ := FRONT_POINT_POS.distanceTo P

/-- Distance `d_12 = c1.distanceTo(c2)` with `c1 = TOP_POINT_POS`, `c2 = LEFT_POINT_POS`. -/
noncomputable def d_12 : ℝ := TOP_POINT_POS.distanceTo LEFT_POINT_POS

/-- The signed offset `a = (r1*r1 - r2*r2 + d_12*d_12) / (2*d_12)` along the
center line, computed inside the circle branch. -/
noncomputable def a (P : Vec3) : ℝ :=
  (rTop P * rTop P - rLeft P * rLeft P + d_12 * d_12) / (2 * d_12)

/-- The circle radius `h = Math.sqrt(Math.max(0, r1*r1 - a*a))`. -/
noncomputable def h (P : Vec3) : ℝ :=
  Real.sqrt (max 0 (rTop P * rTop P - a P * a P))

/-- The circle record (`circleResult`).  The source stores the orientation
as the quaternion aligning `(0,0,1)` to the plane normal
`normalize(c2 - c1)`; it is modelled here by that plane normal itself,
which is the data the quaternion encodes. -/
structure IntersectionCircle where
  exists' : Bool
  center : Vec3
  radius : ℝ
  planeNormal : Vec3

/-- The two-sphere intersection (`circleResult` in the source): existence
test `d_12 < r1 + r2 && d_12 > Math.abs(r1 - r2)`, then
`center = c1 + a * normalize(c2 - c1)`, radius `h`, plane normal
`normalize(c2 - c1)`.  The default (non-existent) record mirrors
`new THREE.Vector3()` and the identity quaternion, whose axis-alignment
image of `(0,0,1)` is `(0,0,1)`. -/
noncomputable def intersectionCircle (P : Vec3) : IntersectionCircle :=
  if d_12 < rTop P + rLeft P ∧ d_12 > |rTop P - rLeft P| then
    { exists' := true
      center := TOP_POINT_POS.add
        (Vec3.smul (a P) ((LEFT_POINT_POS.sub TOP_POINT_POS).normalize))
      radius := h P
      planeNormal := (LEFT_POINT_POS.sub TOP_POINT_POS).normalize }
  else
    { exists' := false
      center := ⟨0, 0, 0⟩
      radius := 0
      planeNormal := ⟨0, 0, 1⟩ }

/-- Radical-plane normal `n_A = c2 - c1`. -/
def n_A : Vec3 := LEFT_POINT_POS.sub TOP_POINT_POS

/-- Radical-plane offset
`d_A = (r1*r1 - r2*r2 - c1.lengthSq() + c2.lengthSq()) / 2`. -/
noncomputable def d_A (P : Vec3) : ℝ :=
  (rTop P * rTop P - rLeft P * rLeft P
    - TOP_POINT_POS.lengthSq + LEFT_POINT_POS.lengthSq) / 2

/-- Radical-plane normal `n_B = c3 - c1`. -/
def n_B : Vec3 := FRONT_POINT_POS.sub TOP_POINT_POS

/-- Radical-plane offset
`d_B = (r1*r1 - r3*r3 - c1.lengthSq() + c3.lengthSq()) / 2`. -/
noncomputable def d_B (P : Vec3) : ℝ :=
  (rTop P * rTop P - rFront P * rFront P
    - TOP_POINT_POS.lengthSq + FRONT_POINT_POS.lengthSq) / 2

/-- Radical-line direction `L_dir = n_A × n_B`. -/
def L_dir : Vec3 := n_A.cross n_B

/-- Squared length `L_dir_sq = L_dir.lengthSq()`. -/
def L_dir_sq : ℝ := L_dir.lengthSq

/-- Point on the radical line:
`L_p0 = (d_A * (n_B × L_dir) + d_B * (L_dir × n_A)) / L_dir_sq`. -/
noncomputable def L_p0 (P : Vec3) : Vec3 :=
  ((Vec3.smul (d_A P) (n_B.cross L_dir)).add
    (Vec3.smul (d_B P) (L_dir.cross n_A))).divideScalar L_dir_sq

/-- Offset `delta_p = L_p0 - c1`. -/
noncomputable def delta_p (P : Vec3) : Vec3 := (L_p0 P).sub TOP_POINT_POS

/-- Quadratic coefficient `A = L_dir_sq`. -/
def A : ℝ := L_dir_sq

/-- Quadratic coefficient `B = 2 * delta_p.dot(L_dir)`. -/
noncomputable def B (P : Vec3) : ℝ := 2 * (delta_p P).dot L_dir

/-- Quadratic coefficient `C = delta_p.lengthSq() - r1*r1`. -/
noncomputable def C (P : Vec3) : ℝ := (delta_p P).lengthSq - rTop P * rTop P

/-- Quadratic `discriminant = B*B - 4*A*C`. -/
noncomputable def discriminant (P : Vec3) : ℝ := B P * B P - 4 * A * C P

/-- Square root `sqrt_disc = Math.sqrt(discriminant)`. -/
noncomputable def sqrt_disc (P : Vec3) : ℝ := Real.sqrt (discriminant P)

/-- First root `t1 = (-B + sqrt_disc) / (2*A)`. -/
noncomputable def t1 (P : Vec3) : ℝ := (-B P + sqrt_disc P) / (2 * A)

/-- Second root `t2 = (-B - sqrt_disc) / (2*A)`. -/
noncomputable def t2 (P : Vec3) : ℝ := (-B P - sqrt_disc P) / (2 * A)

/-- First intersection point `p1 = L_p0 + t1 * L_dir`. -/
noncomputable def p1 (P : Vec3) : Vec3 := (L_p0 P).addScaledVector L_dir (t1 P)

/-- Second intersection point `p2 = L_p0 + t2 * L_dir`. -/
noncomputable def p2 (P : Vec3) : Vec3 := (L_p0 P).addScaledVector L_dir (t2 P)

/-- The trilateration result (`pointsResult` in the source): guarded by the
collinearity check `L_dir_sq > 1e-6`; pushes `p1` when
`discriminant >= 0` and also `p2` when `discriminant > 1e-6`. -/
noncomputable def intersectionPoints (P : Vec3) : List Vec3 :=
  if L_dir_sq > 1e-6 then
    if discriminant P ≥ 0 then
      if discriminant P > 1e-6 then [p1 P, p2 P] else [p1 P]
    else []
  else []

/-- The full per-update result of the `useMemo` computation. -/
structure GeometryResult where
  radiusTop : ℝ
  radiusLeft : ℝ
  radiusFront : ℝ
  intersectionCircle : IntersectionCircle
  intersectionPoints : List Vec3

/-- The geometry engine as a single function of the movable point. -/
noncomputable def computeGeometry (P : Vec3) : GeometryResult :=
  { radiusTop := rTop P
    radiusLeft := rLeft P
    radiusFront := rFront P
    intersectionCircle := intersectionCircle P
    intersectionPoints := intersectionPoints P }

end Scene

namespace Vec3

theorem lengthSq_nonneg (v : Vec3) : 0 ≤ v.lengthSq := by
  unfold lengthSq; nlinarith [sq_nonneg v.x, sq_nonneg v.y, sq_nonneg v.z]

theorem length_nonneg (v : Vec3) : 0 ≤ v.length := Real.sqrt_nonneg _

theorem mul_self_length (v : Vec3) : v.length * v.length = v.lengthSq :=
  Real.mul_self_sqrt v.lengthSq_nonneg

theorem distanceTo_nonneg (a b : Vec3) : 0 ≤ a.distanceTo b := Real.sqrt_nonneg _

theorem mul_self_distanceTo (a b : Vec3) :
    a.distanceTo b * a.distanceTo b = (a.sub b).lengthSq :=
  mul_self_length _

/-- A distance equals `r` once the squared distance equals `r * r`
(for nonnegative `r`). -/
theorem distanceTo_eq (a b : Vec3) (r : ℝ) (hr : 0 ≤ r)
    (hsq : (a.sub b).lengthSq = r * r) : a.distanceTo b = r := by
  unfold distanceTo length
  rw [hsq, Real.sqrt_mul_self hr]

/-- Vectors whose difference has zero squared length are equal. -/
theorem eq_of_lengthSq_sub_eq_zero (a b : Vec3) (hz : (a.sub b).lengthSq = 0) :
    a = b := by
  unfold sub lengthSq at hz
  simp only at hz
  have hx : a.x - b.x = 0 := by nlinarith [sq_nonneg (a.x - b.x), sq_nonneg (a.y - b.y), sq_nonneg (a.z - b.z)]
  have hy : a.y - b.y = 0 := by nlinarith [sq_nonneg (a.x - b.x), sq_nonneg (a.y - b.y), sq_nonneg (a.z - b.z)]
  have hz' : a.z - b.z = 0 := by nlinarith [sq_nonneg (a.x - b.x), sq_nonneg (a.y - b.y), sq_nonneg (a.z - b.z)]
  ext <;> linarith

end Vec3


namespace Scene

theorem rTop_sq (P : Vec3) : rTop P * rTop P = (TOP_POINT_POS.sub P).lengthSq :=
  Vec3.mul_self_distanceTo _ _

theorem rLeft_sq (P : Vec3) : rLeft P * rLeft P = (LEFT_POINT_POS.sub P).lengthSq :=
  Vec3.mul_self_distanceTo _ _

theorem rFront_sq (P : Vec3) : rFront P * rFront P = (FRONT_POINT_POS.sub P).lengthSq :=
  Vec3.mul_self_distanceTo _ _

theorem d_12_eq : d_12 = Real.sqrt 128 := by
  unfold d_12 Vec3.distanceTo Vec3.length Vec3.sub Vec3.lengthSq
    TOP_POINT_POS LEFT_POINT_POS
  norm_num

theorem d_12_pos : 0 < d_12 := by
  rw [d_12_eq]; exact Real.sqrt_pos.mpr (by norm_num)

theorem mul_self_d_12 : d_12 * d_12 = 128 := by
  rw [d_12_eq]; exact Real.mul_self_sqrt (by norm_num)

theorem n_A_eq : n_A = ⟨-8, -8, 0⟩ := by
  unfold n_A Vec3.sub LEFT_POINT_POS TOP_POINT_POS; norm_num

theorem n_B_eq : n_B = ⟨0, -8, 8⟩ := by
  unfold n_B Vec3.sub FRONT_POINT_POS TOP_POINT_POS; norm_num

theorem L_dir_eq : L_dir = ⟨-64, 64, 64⟩ := by
  unfold L_dir Vec3.cross; rw [n_A_eq, n_B_eq]; norm_num

theorem L_dir_sq_eq : L_dir_sq = 12288 := by
  unfold L_dir_sq Vec3.lengthSq; rw [L_dir_eq]; norm_num

theorem A_eq : A = 12288 := L_dir_sq_eq

/-- The collinearity guard `L_dir_sq > 1e-6` is satisfied for every input,
so the trilateration always reaches the main branch. -/
theorem intersectionPoints_eq (P : Vec3) :
    intersectionPoints P =
      if discriminant P ≥ 0 then
        if discriminant P > 1e-6 then [p1 P, p2 P] else [p1 P]
      else [] := by
  unfold intersectionPoints
  rw [if_pos]
  rw [L_dir_sq_eq]; norm_num

end Scene

namespace Scene

theorem cross_nB_L_dir : n_B.cross L_dir = ⟨-1024, -512, -512⟩ := by
  rw [Vec3.ext_iff]; rw [n_B_eq, L_dir_eq]; unfold Vec3.cross; norm_num

theorem cross_L_dir_nA : L_dir.cross n_A = ⟨512, -512, 1024⟩ := by
  rw [Vec3.ext_iff]; rw [n_A_eq, L_dir_eq]; unfold Vec3.cross; norm_num

theorem dot_nA_L_dir : n_A.dot L_dir = 0 := by
  rw [n_A_eq, L_dir_eq]; unfold Vec3.dot; norm_num

theorem dot_nB_L_dir : n_B.dot L_dir = 0 := by
  rw [n_B_eq, L_dir_eq]; unfold Vec3.dot; norm_num

/-- The point `L_p0` lies on the first radical plane. -/
theorem dot_nA_L_p0 (P : Vec3) : n_A.dot (L_p0 P) = d_A P := by
  unfold L_p0
  rw [cross_nB_L_dir, cross_L_dir_nA, n_A_eq, L_dir_sq_eq]
  unfold Vec3.divideScalar Vec3.smul Vec3.add Vec3.dot
  ring

/-- The point `L_p0` lies on the second radical plane. -/
theorem dot_nB_L_p0 (P : Vec3) : n_B.dot (L_p0 P) = d_B P := by
  unfold L_p0
  rw [cross_nB_L_dir, cross_L_dir_nA, n_B_eq, L_dir_sq_eq]
  unfold Vec3.divideScalar Vec3.smul Vec3.add Vec3.dot
  ring

theorem dot_addScaledVector (u q L : Vec3) (t : ℝ) :
    u.dot (q.addScaledVector L t) = u.dot q + t * u.dot L := by
  unfold Vec3.dot Vec3.addScaledVector; ring

/-- Every point of the parametrized radical line lies on the first
radical plane. -/
theorem plane_A_mem (P : Vec3) (t : ℝ) :
    n_A.dot ((L_p0 P).addScaledVector L_dir t) = d_A P := by
  rw [dot_addScaledVector, dot_nA_L_p0, dot_nA_L_dir]; ring

/-- Every point of the parametrized radical line lies on the second
radical plane. -/
theorem plane_B_mem (P : Vec3) (t : ℝ) :
    n_B.dot ((L_p0 P).addScaledVector L_dir t) = d_B P := by
  rw [dot_addScaledVector, dot_nB_L_p0, dot_nB_L_dir]; ring

theorem lengthSq_sub_addScaled (c q L : Vec3) (t : ℝ) :
    (c.sub (q.addScaledVector L t)).lengthSq
      = (q.sub c).lengthSq + 2 * t * ((q.sub c).dot L) + t * t * L.lengthSq := by
  unfold Vec3.sub Vec3.addScaledVector Vec3.lengthSq Vec3.dot; ring

/-- A root of the quadratic yields a point on the first sphere. -/
theorem sphere1_of_root (P : Vec3) (t : ℝ)
    (hroot : A * (t * t) + B P * t + C P = 0) :
    (TOP_POINT_POS.sub ((L_p0 P).addScaledVector L_dir t)).lengthSq
      = rTop P * rTop P := by
  have hexp := lengthSq_sub_addScaled TOP_POINT_POS (L_p0 P) L_dir t
  have hB : B P = 2 * (((L_p0 P).sub TOP_POINT_POS).dot L_dir) := rfl
  have hC : C P = ((L_p0 P).sub TOP_POINT_POS).lengthSq - rTop P * rTop P := rfl
  have hA : A = L_dir.lengthSq := rfl
  rw [hB, hC, hA] at hroot
  rw [hexp]
  linear_combination hroot

/-- Membership in the first radical plane transfers sphere-1 membership to
sphere 2. -/
theorem sphere2_of_plane (P p : Vec3)
    (hplane : n_A.dot p = d_A P)
    (hs1 : (TOP_POINT_POS.sub p).lengthSq = rTop P * rTop P) :
    (LEFT_POINT_POS.sub p).lengthSq = rLeft P * rLeft P := by
  have hdA : d_A P = (rTop P * rTop P - rLeft P * rLeft P
      - TOP_POINT_POS.lengthSq + LEFT_POINT_POS.lengthSq) / 2 := rfl
  rw [hdA] at hplane
  simp only [n_A, TOP_POINT_POS, LEFT_POINT_POS, Vec3.sub, Vec3.dot,
    Vec3.lengthSq] at hplane hs1 ⊢
  linear_combination hs1 - 2 * hplane

/-- Membership in the second radical plane transfers sphere-1 membership to
sphere 3. -/
theorem sphere3_of_plane (P p : Vec3)
    (hplane : n_B.dot p = d_B P)
    (hs1 : (TOP_POINT_POS.sub p).lengthSq = rTop P * rTop P) :
    (FRONT_POINT_POS.sub p).lengthSq = rFront P * rFront P := by
  have hdB : d_B P = (rTop P * rTop P - rFront P * rFront P
      - TOP_POINT_POS.lengthSq + FRONT_POINT_POS.lengthSq) / 2 := rfl
  rw [hdB] at hplane
  simp only [n_B, TOP_POINT_POS, FRONT_POINT_POS, Vec3.sub, Vec3.dot,
    Vec3.lengthSq] at hplane hs1 ⊢
  linear_combination hs1 - 2 * hplane

theorem mul_self_sqrt_disc (P : Vec3) (hd : 0 ≤ discriminant P) :
    sqrt_disc P * sqrt_disc P = discriminant P :=
  Real.mul_self_sqrt hd

/-- The parameter `t1` is a root of the quadratic whenever the discriminant is
nonnegative. -/
theorem t1_root (P : Vec3) (hd : 0 ≤ discriminant P) :
    A * (t1 P * t1 P) + B P * t1 P + C P = 0 := by
  have hs := mul_self_sqrt_disc P hd
  have hdisc : discriminant P = B P * B P - 4 * A * C P := rfl
  rw [hdisc] at hs
  unfold t1
  rw [A_eq] at hs ⊢
  field_simp
  linear_combination 301989888 * hs

/-- The parameter `t2` is a root of the quadratic whenever the discriminant is
nonnegative. -/
theorem t2_root (P : Vec3) (hd : 0 ≤ discriminant P) :
    A * (t2 P * t2 P) + B P * t2 P + C P = 0 := by
  have hs := mul_self_sqrt_disc P hd
  have hdisc : discriminant P = B P * B P - 4 * A * C P := rfl
  rw [hdisc] at hs
  unfold t2
  rw [A_eq] at hs ⊢
  field_simp
  linear_combination 301989888 * hs

/-- Everything in the returned point list is `p1` or `p2`, and the
discriminant is nonnegative. -/
theorem mem_points_cases (P p : Vec3) (hp : p ∈ intersectionPoints P) :
    0 ≤ discriminant P ∧ (p = p1 P ∨ p = p2 P) := by
  rw [intersectionPoints_eq] at hp
  split_ifs at hp with h1 h2
  · simp only [List.mem_cons, List.not_mem_nil, or_false] at hp
    exact ⟨h1, hp⟩
  · simp only [List.mem_singleton] at hp
    exact ⟨h1, Or.inl hp⟩
  · simp only [List.not_mem_nil] at hp

/-- Every returned trilateration point satisfies all three sphere
equations (squared form), exactly, over the reals. -/
theorem mem_points_sphereSqs (P p : Vec3) (hp : p ∈ intersectionPoints P) :
    (TOP_POINT_POS.sub p).lengthSq = rTop P * rTop P ∧
    (LEFT_POINT_POS.sub p).lengthSq = rLeft P * rLeft P ∧
    (FRONT_POINT_POS.sub p).lengthSq = rFront P * rFront P := by
  obtain ⟨hd, hcase⟩ := mem_points_cases P p hp
  have key : ∀ t : ℝ, A * (t * t) + B P * t + C P = 0 →
      (TOP_POINT_POS.sub ((L_p0 P).addScaledVector L_dir t)).lengthSq
        = rTop P * rTop P ∧
      (LEFT_POINT_POS.sub ((L_p0 P).addScaledVector L_dir t)).lengthSq
        = rLeft P * rLeft P ∧
      (FRONT_POINT_POS.sub ((L_p0 P).addScaledVector L_dir t)).lengthSq
        = rFront P * rFront P := by
    intro t ht
    have hs1 := sphere1_of_root P t ht
    exact ⟨hs1, sphere2_of_plane P _ (plane_A_mem P t) hs1,
      sphere3_of_plane P _ (plane_B_mem P t) hs1⟩
  rcases hcase with rfl | rfl
  · exact key (t1 P) (t1_root P hd)
  · exact key (t2 P) (t2_root P hd)

end Scene

namespace Scene

theorem dot_comm (u v : Vec3) : u.dot v = v.dot u := by
  unfold Vec3.dot; ring

theorem circle_exists_iff (P : Vec3) :
    (intersectionCircle P).exists' = true ↔
      d_12 < rTop P + rLeft P ∧ d_12 > |rTop P - rLeft P| := by
  unfold intersectionCircle
  split_ifs with hc
  · simpa using hc
  · simpa using hc

/-- The circle record produced when the existence test passes. -/
theorem circle_pos_eq (P : Vec3)
    (hc : d_12 < rTop P + rLeft P ∧ d_12 > |rTop P - rLeft P|) :
    intersectionCircle P =
      { exists' := true
        center := TOP_POINT_POS.add
          (Vec3.smul (a P) ((LEFT_POINT_POS.sub TOP_POINT_POS).normalize))
        radius := h P
        planeNormal := (LEFT_POINT_POS.sub TOP_POINT_POS).normalize } := by
  unfold intersectionCircle
  rw [if_pos hc]

theorem sqrt128_mul_self : Real.sqrt 128 * Real.sqrt 128 = 128 :=
  Real.mul_self_sqrt (by norm_num)

theorem sqrt128_pos : 0 < Real.sqrt 128 :=
  Real.sqrt_pos.mpr (by norm_num)

/-- Under the strict existence inequalities the squared circle radius
`r1*r1 - a*a` is strictly positive. -/
theorem r1_sq_sub_a_sq_pos (P : Vec3)
    (hc : d_12 < rTop P + rLeft P ∧ d_12 > |rTop P - rLeft P|) :
    0 < rTop P * rTop P - a P * a P := by
  obtain ⟨hsum, habs⟩ := hc
  obtain ⟨hd1, hd2⟩ := abs_lt.mp habs
  have hd : 0 < d_12 := d_12_pos
  have hr1 : 0 ≤ rTop P := Vec3.distanceTo_nonneg _ _
  have hr2 : 0 ≤ rLeft P := Vec3.distanceTo_nonneg _ _
  have hN1 : 0 < (rLeft P - rTop P + d_12) * (rLeft P + rTop P - d_12) :=
    mul_pos (by linarith) (by linarith)
  have hN2 : 0 < (rTop P + d_12 - rLeft P) * (rTop P + d_12 + rLeft P) :=
    mul_pos (by linarith) (by linarith)
  have ha : a P = (rTop P * rTop P - rLeft P * rLeft P + d_12 * d_12)
      / (2 * d_12) := rfl
  have hne : (2 * d_12) ≠ 0 := by positivity
  have hsq : a P * a P
      = (rTop P * rTop P - rLeft P * rLeft P + d_12 * d_12)
        * (rTop P * rTop P - rLeft P * rLeft P + d_12 * d_12)
        / (2 * d_12 * (2 * d_12)) := by
    rw [ha, div_mul_div_comm]
  rw [hsq, sub_pos, div_lt_iff₀ (by positivity)]
  nlinarith [mul_pos hN1 hN2]

/-- When the existence test passes, `max 0 (r1*r1 - a*a)` drops the guard
and the reported radius squares back to `r1*r1 - a*a`. -/
theorem h_mul_self (P : Vec3)
    (hc : d_12 < rTop P + rLeft P ∧ d_12 > |rTop P - rLeft P|) :
    h P * h P = rTop P * rTop P - a P * a P := by
  have hpos := r1_sq_sub_a_sq_pos P hc
  unfold h
  rw [max_eq_right hpos.le]
  exact Real.mul_self_sqrt hpos.le

theorem h_pos (P : Vec3)
    (hc : d_12 < rTop P + rLeft P ∧ d_12 > |rTop P - rLeft P|) :
    0 < h P := by
  have hpos := r1_sq_sub_a_sq_pos P hc
  unfold h
  rw [max_eq_right hpos.le]
  exact Real.sqrt_pos.mpr hpos

/-- The normalized center-line direction, in closed form. -/
theorem dir_eq : (LEFT_POINT_POS.sub TOP_POINT_POS).normalize
    = ⟨-8 / Real.sqrt 128, -8 / Real.sqrt 128, 0⟩ := by
  rw [show LEFT_POINT_POS.sub TOP_POINT_POS = (⟨-8, -8, 0⟩ : Vec3) from n_A_eq]
  unfold Vec3.normalize Vec3.length Vec3.smul Vec3.lengthSq
  rw [Vec3.ext_iff]
  norm_num
  all_goals ring

theorem dir_dot_dir :
    ((LEFT_POINT_POS.sub TOP_POINT_POS).normalize).dot
      ((LEFT_POINT_POS.sub TOP_POINT_POS).normalize) = 1 := by
  rw [dir_eq]
  unfold Vec3.dot
  have hs2 : Real.sqrt 128 ^ 2 = 128 := Real.sq_sqrt (by norm_num)
  have hne : Real.sqrt 128 ≠ 0 := ne_of_gt sqrt128_pos
  field_simp
  linarith [hs2]

/-- The second center is the first plus `d_12` times the unit direction. -/
theorem LEFT_eq_TOP_add_dir :
    LEFT_POINT_POS = TOP_POINT_POS.add
      (Vec3.smul d_12 ((LEFT_POINT_POS.sub TOP_POINT_POS).normalize)) := by
  rw [dir_eq, d_12_eq]
  unfold TOP_POINT_POS LEFT_POINT_POS Vec3.add Vec3.smul
  have hs2 : Real.sqrt 128 ^ 2 = 128 := Real.sq_sqrt (by norm_num)
  have hne : Real.sqrt 128 ≠ 0 := ne_of_gt sqrt128_pos
  rw [Vec3.ext_iff]
  refine ⟨?_, ?_, by norm_num⟩
  · field_simp
    linarith [hs2]
  · field_simp
    ring

theorem lengthSq_sub_add_add (cG w u : Vec3) (α β : ℝ) :
    (cG.sub ((cG.add (Vec3.smul α w)).add (Vec3.smul β u))).lengthSq
      = α * α * (w.dot w) + 2 * α * β * (w.dot u) + β * β * (u.dot u) := by
  unfold Vec3.sub Vec3.add Vec3.smul Vec3.lengthSq Vec3.dot; ring

theorem lengthSq_sub2 (cG w u : Vec3) (δ α β : ℝ) :
    ((cG.add (Vec3.smul δ w)).sub
        ((cG.add (Vec3.smul α w)).add (Vec3.smul β u))).lengthSq
      = (α - δ) * (α - δ) * (w.dot w) + 2 * (α - δ) * β * (w.dot u)
        + β * β * (u.dot u) := by
  unfold Vec3.sub Vec3.add Vec3.smul Vec3.lengthSq Vec3.dot; ring

theorem two_a_d12 (P : Vec3) :
    2 * a P * d_12 = rTop P * rTop P - rLeft P * rLeft P + d_12 * d_12 := by
  have hne : d_12 ≠ 0 := ne_of_gt d_12_pos
  unfold a
  field_simp
  ring

end Scene

namespace Scene

/-- Any point at offset `a` along a unit direction `w` from the first
center plus `h` along a unit vector `u` orthogonal to `w` lies on both
sphere surfaces, provided `h*h = r1*r1 - a*a` and the second center is at
distance `d_12` along `w`. -/
theorem circle_point_alg (P w u : Vec3)
    (hw : LEFT_POINT_POS = TOP_POINT_POS.add (Vec3.smul d_12 w))
    (hww : w.dot w = 1) (hwu : w.dot u = 0) (huu : u.dot u = 1)
    (hh : h P * h P = rTop P * rTop P - a P * a P) :
    (TOP_POINT_POS.sub ((TOP_POINT_POS.add (Vec3.smul (a P) w)).add
        (Vec3.smul (h P) u))).lengthSq = rTop P * rTop P ∧
    (LEFT_POINT_POS.sub ((TOP_POINT_POS.add (Vec3.smul (a P) w)).add
        (Vec3.smul (h P) u))).lengthSq = rLeft P * rLeft P := by
  constructor
  · rw [lengthSq_sub_add_add, hww, hwu, huu]
    linear_combination hh
  · rw [hw, lengthSq_sub2, hww, hwu, huu]
    linear_combination hh - two_a_d12 P

end Scene

/-- C1: every point returned by the trilateration solver lies exactly (the
real-arithmetic rendering of "within floating tolerance") on all three
sphere surfaces: its distance to each anchor equals that anchor's computed
radius. -/
theorem trilateration_points_on_spheres (P p : Vec3)
    (hp : p ∈ Scene.intersectionPoints P) :
    Scene.TOP_POINT_POS.distanceTo p = Scene.rTop P ∧
    Scene.LEFT_POINT_POS.distanceTo p = Scene.rLeft P ∧
    Scene.FRONT_POINT_POS.distanceTo p = Scene.rFront P := by
  obtain ⟨h1, h2, h3⟩ := Scene.mem_points_sphereSqs P p hp
  exact ⟨Vec3.distanceTo_eq _ _ _ (Vec3.distanceTo_nonneg _ _) h1,
    Vec3.distanceTo_eq _ _ _ (Vec3.distanceTo_nonneg _ _) h2,
    Vec3.distanceTo_eq _ _ _ (Vec3.distanceTo_nonneg _ _) h3⟩

/-- C2: the reported circle existence flag is true exactly when
`|r1 - r2| < d12 < r1 + r2` with strict inequalities, so tangency
(equality on either side) reports non-existence. -/
theorem circle_exists_iff_strict (P : Vec3) :
    (Scene.intersectionCircle P).exists' = true ↔
      |Scene.rTop P - Scene.rLeft P| < Scene.d_12 ∧
        Scene.d_12 < Scene.rTop P + Scene.rLeft P := by
  rw [Scene.circle_exists_iff P]
  constructor
  · rintro ⟨hs, ha⟩; exact ⟨ha, hs⟩
  · rintro ⟨ha, hs⟩; exact ⟨hs, ha⟩

/-- C3: each computed radius is nonnegative and equals the Euclidean
distance (square root of the sum of squared coordinate differences) from
the corresponding anchor to the movable point. -/
theorem radii_nonneg_eq_distance (P : Vec3) :
    (0 ≤ Scene.rTop P ∧
      Scene.rTop P = Real.sqrt ((Scene.TOP_POINT_POS.x - P.x) ^ 2
        + (Scene.TOP_POINT_POS.y - P.y) ^ 2
        + (Scene.TOP_POINT_POS.z - P.z) ^ 2)) ∧
    (0 ≤ Scene.rLeft P ∧
      Scene.rLeft P = Real.sqrt ((Scene.LEFT_POINT_POS.x - P.x) ^ 2
        + (Scene.LEFT_POINT_POS.y - P.y) ^ 2
        + (Scene.LEFT_POINT_POS.z - P.z) ^ 2)) ∧
    (0 ≤ Scene.rFront P ∧
      Scene.rFront P = Real.sqrt ((Scene.FRONT_POINT_POS.x - P.x) ^ 2
        + (Scene.FRONT_POINT_POS.y - P.y) ^ 2
        + (Scene.FRONT_POINT_POS.z - P.z) ^ 2)) := by
  refine ⟨⟨Vec3.distanceTo_nonneg _ _, ?_⟩, ⟨Vec3.distanceTo_nonneg _ _, ?_⟩,
    ⟨Vec3.distanceTo_nonneg _ _, ?_⟩⟩ <;>
  · simp only [Scene.rTop, Scene.rLeft, Scene.rFront, Vec3.distanceTo,
      Vec3.length, Vec3.sub, Vec3.lengthSq]
    congr 1
    ring

/-- C4: whenever existence is reported, the circle radius `h` is strictly
positive, the center is `c1 + a * normalize(c2 - c1)`, and every point of
the reported circle (center plus radius times any unit vector orthogonal
to the plane normal) lies exactly on both sphere surfaces. -/
theorem circle_exists_sound (P : Vec3)
    (hex : (Scene.intersectionCircle P).exists' = true) :
    0 < (Scene.intersectionCircle P).radius ∧
    (Scene.intersectionCircle P).center = Scene.TOP_POINT_POS.add
      (Vec3.smul (Scene.a P)
        ((Scene.LEFT_POINT_POS.sub Scene.TOP_POINT_POS).normalize)) ∧
    ∀ u : Vec3, u.lengthSq = 1 →
      u.dot (Scene.intersectionCircle P).planeNormal = 0 →
      Scene.TOP_POINT_POS.distanceTo
          (((Scene.intersectionCircle P).center).add
            (Vec3.smul ((Scene.intersectionCircle P).radius) u)) = Scene.rTop P ∧
      Scene.LEFT_POINT_POS.distanceTo
          (((Scene.intersectionCircle P).center).add
            (Vec3.smul ((Scene.intersectionCircle P).radius) u)) = Scene.rLeft P := by
  have hc : Scene.d_12 < Scene.rTop P + Scene.rLeft P ∧
      Scene.d_12 > |Scene.rTop P - Scene.rLeft P| :=
    (Scene.circle_exists_iff P).mp hex
  rw [Scene.circle_pos_eq P hc]
  refine ⟨Scene.h_pos P hc, rfl, ?_⟩
  intro u hu1 hu2
  have hwu : ((Scene.LEFT_POINT_POS.sub Scene.TOP_POINT_POS).normalize).dot u
      = 0 := by
    rw [Scene.dot_comm]; exact hu2
  have huu : u.dot u = 1 := hu1
  obtain ⟨hs1, hs2⟩ := Scene.circle_point_alg P
    ((Scene.LEFT_POINT_POS.sub Scene.TOP_POINT_POS).normalize) u
    Scene.LEFT_eq_TOP_add_dir Scene.dir_dot_dir hwu huu (Scene.h_mul_self P hc)
  exact ⟨Vec3.distanceTo_eq _ _ _ (Vec3.distanceTo_nonneg _ _) hs1,
    Vec3.distanceTo_eq _ _ _ (Vec3.distanceTo_nonneg _ _) hs2⟩

namespace Scene

/-- With a strictly positive (beyond epsilon) discriminant the two pushed
points are distinct. -/
theorem p1_ne_p2 (P : Vec3) (hgt : discriminant P > 1e-6) : p1 P ≠ p2 P := by
  have hdpos : 0 < discriminant P := lt_trans (by norm_num) hgt
  have hsd : 0 < sqrt_disc P := Real.sqrt_pos.mpr hdpos
  intro heq
  have hx := congrArg Vec3.x heq
  unfold p1 p2 Vec3.addScaledVector at hx
  simp only at hx
  have hLx : L_dir.x = -64 := by rw [L_dir_eq]
  rw [hLx] at hx
  have ht : t1 P = t2 P := by linarith
  unfold t1 t2 at ht
  rw [A_eq] at ht
  field_simp at ht
  linarith

end Scene

/-- C7: the trilateration result always has length at most two, and has
length two only with two distinct points. -/
theorem points_length_le_two (P : Vec3) :
    (Scene.intersectionPoints P).length ≤ 2 ∧
    ∀ p q : Vec3, Scene.intersectionPoints P = [p, q] → p ≠ q := by
  rw [Scene.intersectionPoints_eq]
  split_ifs with hge hgt
  · refine ⟨by simp, ?_⟩
    intro p q heq
    injection heq with e1 rest
    injection rest with e2 _
    subst e1; subst e2
    exact Scene.p1_ne_p2 P hgt
  · exact ⟨by simp, fun p q heq => absurd heq (by simp)⟩
  · exact ⟨by simp, fun p q heq => absurd heq (by simp)⟩

/-- C8: the engine is a pure function of the movable point; two
invocations on identical inputs return identical results. -/
theorem engine_deterministic (P Q : Vec3) (hPQ : P = Q) :
    Scene.computeGeometry P = Scene.computeGeometry Q := by
  rw [hPQ]

/-- C10: the radical-line direction is the movable-point-independent
constant `(-64, 64, 64)` with squared length `12288 > 1e-6`, so the
collinear-degeneracy branch is unreachable for every input, and the
circle test distance `d_12` is the constant `sqrt 128`. -/
theorem radical_line_constant :
    Scene.L_dir = ⟨-64, 64, 64⟩ ∧ Scene.L_dir_sq = 12288 ∧
    (1e-6 : ℝ) < Scene.L_dir_sq ∧ Scene.d_12 = Real.sqrt 128 ∧
    ∀ P : Vec3, Scene.intersectionPoints P =
      if Scene.discriminant P ≥ 0 then
        (if Scene.discriminant P > 1e-6 then [Scene.p1 P, Scene.p2 P]
         else [Scene.p1 P])
      else [] :=
  ⟨Scene.L_dir_eq, Scene.L_dir_sq_eq, by rw [Scene.L_dir_sq_eq]; norm_num,
    Scene.d_12_eq, Scene.intersectionPoints_eq⟩

/-- C5 (amended): whenever the circle exists its center lies on the
LINE through the two sphere centers (`center = c1 + t * (c2 - c1)` for
some real `t`); the offset need not lie in `[0, d_12]`, so the center can
fall outside the segment. -/
theorem circle_center_on_center_line (P : Vec3)
    (hex : (Scene.intersectionCircle P).exists' = true) :
    ∃ t : ℝ, (Scene.intersectionCircle P).center
      = Scene.TOP_POINT_POS.add
          (Vec3.smul t (Scene.LEFT_POINT_POS.sub Scene.TOP_POINT_POS)) := by
  have hc := (Scene.circle_exists_iff P).mp hex
  refine ⟨Scene.a P / Real.sqrt 128, ?_⟩
  rw [Scene.circle_pos_eq P hc]
  dsimp only
  rw [Scene.dir_eq, show Scene.LEFT_POINT_POS.sub Scene.TOP_POINT_POS
    = (⟨-8, -8, 0⟩ : Vec3) from Scene.n_A_eq]
  unfold Vec3.add Vec3.smul
  rw [Vec3.ext_iff]
  exact ⟨by ring, by ring, by ring⟩

/-- C5 (counterexample): at movable point `(8, 8, 0)` the circle exists
but the signed offset `a` is negative, so the reported center does not lie
on the segment between the two sphere centers. -/
theorem circle_center_off_segment :
    (Scene.intersectionCircle ⟨8, 8, 0⟩).exists' = true ∧
    ¬ (0 ≤ Scene.a ⟨8, 8, 0⟩ ∧ Scene.a ⟨8, 8, 0⟩ ≤ Scene.d_12) := by
  have hrT : Scene.rTop ⟨8, 8, 0⟩ = 8 :=
    Vec3.distanceTo_eq _ _ 8 (by norm_num)
      (by unfold Scene.TOP_POINT_POS Vec3.sub Vec3.lengthSq; norm_num)
  have hrTsq : Scene.rTop ⟨8, 8, 0⟩ * Scene.rTop ⟨8, 8, 0⟩ = 64 := by
    rw [hrT]; norm_num
  have hrLsq : Scene.rLeft ⟨8, 8, 0⟩ * Scene.rLeft ⟨8, 8, 0⟩ = 320 := by
    rw [Scene.rLeft_sq]
    unfold Scene.LEFT_POINT_POS Vec3.sub Vec3.lengthSq
    norm_num
  have hrLnn : 0 ≤ Scene.rLeft ⟨8, 8, 0⟩ := Vec3.distanceTo_nonneg _ _
  have h8L : 8 < Scene.rLeft ⟨8, 8, 0⟩ := by nlinarith [hrLsq, hrLnn]
  have hd2 := Scene.mul_self_d_12
  have hdpos := Scene.d_12_pos
  have h8d : 8 < Scene.d_12 := by nlinarith [hd2, hdpos]
  constructor
  · rw [Scene.circle_exists_iff]
    constructor
    · rw [hrT]
      nlinarith [hd2, hdpos, hrLsq, hrLnn]
    · rw [hrT, abs_of_nonpos (by linarith)]
      nlinarith [hrLsq, hd2, h8d, hrLnn, hdpos]
  · rintro ⟨h0, _⟩
    have ha : Scene.a ⟨8, 8, 0⟩ = (64 - 320 + 128) / (2 * Scene.d_12) := by
      unfold Scene.a
      rw [hrTsq, hrLsq, hd2]
    have hneg : Scene.a ⟨8, 8, 0⟩ < 0 := by
      rw [ha]
      apply div_neg_of_neg_of_pos (by norm_num)
      linarith
    linarith

/-- C9: with the movable point placed on an anchor (a zero-radius sphere),
none of the divisors `2*d_12`, `L_dir_sq`, `2*A` vanish, and any point the
solver returns coincides with that anchor — the only location consistent
with a zero-radius sphere. -/
theorem zero_radius_sphere_safe (P : Vec3)
    (hanch : P = Scene.TOP_POINT_POS ∨ P = Scene.LEFT_POINT_POS ∨
      P = Scene.FRONT_POINT_POS)
    (p : Vec3) (hp : p ∈ Scene.intersectionPoints P) :
    2 * Scene.d_12 ≠ 0 ∧ Scene.L_dir_sq ≠ 0 ∧ 2 * Scene.A ≠ 0 ∧ p = P := by
  refine ⟨by have := Scene.d_12_pos; intro hcon; linarith,
    by rw [Scene.L_dir_sq_eq]; norm_num,
    by rw [Scene.A_eq]; norm_num, ?_⟩
  rcases hanch with rfl | rfl | rfl
  · obtain ⟨h1, _, _⟩ := Scene.mem_points_sphereSqs _ p hp
    have hz : (Scene.TOP_POINT_POS.sub p).lengthSq = 0 := by
      rw [h1, Scene.rTop_sq]
      unfold Scene.TOP_POINT_POS Vec3.sub Vec3.lengthSq
      norm_num
    exact (Vec3.eq_of_lengthSq_sub_eq_zero _ _ hz).symm
  · obtain ⟨_, h2, _⟩ := Scene.mem_points_sphereSqs _ p hp
    have hz : (Scene.LEFT_POINT_POS.sub p).lengthSq = 0 := by
      rw [h2, Scene.rLeft_sq]
      unfold Scene.LEFT_POINT_POS Vec3.sub Vec3.lengthSq
      norm_num
    exact (Vec3.eq_of_lengthSq_sub_eq_zero _ _ hz).symm
  · obtain ⟨_, _, h3⟩ := Scene.mem_points_sphereSqs _ p hp
    have hz : (Scene.FRONT_POINT_POS.sub p).lengthSq = 0 := by
      rw [h3, Scene.rFront_sq]
      unfold Scene.FRONT_POINT_POS Vec3.sub Vec3.lengthSq
      norm_num
    exact (Vec3.eq_of_lengthSq_sub_eq_zero _ _ hz).symm

namespace Scene

theorem evalO_rTop : rTop ⟨0, 0, 0⟩ = 8 :=
  Vec3.distanceTo_eq _ _ 8 (by norm_num)
    (by simp only [TOP_POINT_POS, Vec3.sub, Vec3.lengthSq]; norm_num)

theorem evalO_rLeft : rLeft ⟨0, 0, 0⟩ = 8 :=
  Vec3.distanceTo_eq _ _ 8 (by norm_num)
    (by simp only [LEFT_POINT_POS, Vec3.sub, Vec3.lengthSq]; norm_num)

theorem evalO_rFront : rFront ⟨0, 0, 0⟩ = 8 :=
  Vec3.distanceTo_eq _ _ 8 (by norm_num)
    (by simp only [FRONT_POINT_POS, Vec3.sub, Vec3.lengthSq]; norm_num)

theorem evalO_circle_exists : (intersectionCircle ⟨0, 0, 0⟩).exists' = true := by
  rw [circle_exists_iff, evalO_rTop, evalO_rLeft]
  constructor
  · have hlt : Real.sqrt 128 < 16 := by
      rw [Real.sqrt_lt' (by norm_num)]; norm_num
    rw [d_12_eq]; linarith
  · rw [show (8:ℝ) - 8 = 0 by norm_num, abs_zero]
    exact d_12_pos

theorem evalO_d_A : d_A ⟨0, 0, 0⟩ = 0 := by
  unfold d_A
  rw [show rTop ⟨0, 0, 0⟩ * rTop ⟨0, 0, 0⟩ = 64 by rw [evalO_rTop]; norm_num,
    show rLeft ⟨0, 0, 0⟩ * rLeft ⟨0, 0, 0⟩ = 64 by rw [evalO_rLeft]; norm_num]
  simp only [TOP_POINT_POS, LEFT_POINT_POS, Vec3.lengthSq]
  norm_num

theorem evalO_d_B : d_B ⟨0, 0, 0⟩ = 0 := by
  unfold d_B
  rw [show rTop ⟨0, 0, 0⟩ * rTop ⟨0, 0, 0⟩ = 64 by rw [evalO_rTop]; norm_num,
    show rFront ⟨0, 0, 0⟩ * rFront ⟨0, 0, 0⟩ = 64 by rw [evalO_rFront]; norm_num]
  simp only [TOP_POINT_POS, FRONT_POINT_POS, Vec3.lengthSq]
  norm_num

theorem evalO_L_p0 : L_p0 ⟨0, 0, 0⟩ = ⟨0, 0, 0⟩ := by
  unfold L_p0 Vec3.divideScalar
  rw [cross_nB_L_dir, cross_L_dir_nA, L_dir_sq_eq, evalO_d_A, evalO_d_B]
  simp only [Vec3.smul, Vec3.add]
  rw [Vec3.ext_iff]
  norm_num

theorem evalO_B : B ⟨0, 0, 0⟩ = -1024 := by
  unfold B delta_p
  rw [evalO_L_p0, L_dir_eq]
  simp only [TOP_POINT_POS, Vec3.sub, Vec3.dot]
  norm_num

theorem evalO_C : C ⟨0, 0, 0⟩ = 0 := by
  unfold C delta_p
  rw [evalO_L_p0,
    show rTop ⟨0, 0, 0⟩ * rTop ⟨0, 0, 0⟩ = 64 by rw [evalO_rTop]; norm_num]
  simp only [TOP_POINT_POS, Vec3.sub, Vec3.lengthSq]
  norm_num

theorem evalO_disc : discriminant ⟨0, 0, 0⟩ = 1048576 := by
  unfold discriminant
  rw [evalO_B, evalO_C, A_eq]
  norm_num

theorem evalO_sqrt_disc : sqrt_disc ⟨0, 0, 0⟩ = 1024 := by
  unfold sqrt_disc
  rw [evalO_disc, show (1048576 : ℝ) = 1024 ^ 2 by norm_num,
    Real.sqrt_sq (by norm_num : (0:ℝ) ≤ 1024)]

theorem evalO_t1 : t1 ⟨0, 0, 0⟩ = 1 / 12 := by
  unfold t1
  rw [evalO_B, evalO_sqrt_disc, A_eq]
  norm_num

theorem evalO_t2 : t2 ⟨0, 0, 0⟩ = 0 := by
  unfold t2
  rw [evalO_B, evalO_sqrt_disc, A_eq]
  norm_num

theorem evalO_p1 : p1 ⟨0, 0, 0⟩ = ⟨-16/3, 16/3, 16/3⟩ := by
  unfold p1
  rw [evalO_L_p0, L_dir_eq, evalO_t1]
  simp only [Vec3.addScaledVector]
  rw [Vec3.ext_iff]
  norm_num

theorem evalO_p2 : p2 ⟨0, 0, 0⟩ = ⟨0, 0, 0⟩ := by
  unfold p2
  rw [evalO_L_p0, L_dir_eq, evalO_t2]
  simp only [Vec3.addScaledVector]
  rw [Vec3.ext_iff]
  norm_num

theorem evalO_points : intersectionPoints ⟨0, 0, 0⟩
    = [⟨-16/3, 16/3, 16/3⟩, ⟨0, 0, 0⟩] := by
  rw [intersectionPoints_eq, evalO_disc,
    if_pos (by norm_num : (1048576:ℝ) ≥ 0),
    if_pos (by norm_num : (1048576:ℝ) > 1e-6), evalO_p1, evalO_p2]

end Scene

namespace Scene

theorem evalT_rTopSq : rTop TOP_POINT_POS * rTop TOP_POINT_POS = 0 := by
  rw [rTop_sq]
  simp only [TOP_POINT_POS, Vec3.sub, Vec3.lengthSq]
  norm_num

theorem evalT_rLeftSq : rLeft TOP_POINT_POS * rLeft TOP_POINT_POS = 128 := by
  rw [rLeft_sq]
  simp only [TOP_POINT_POS, LEFT_POINT_POS, Vec3.sub, Vec3.lengthSq]
  norm_num

theorem evalT_rFrontSq : rFront TOP_POINT_POS * rFront TOP_POINT_POS = 128 := by
  rw [rFront_sq]
  simp only [TOP_POINT_POS, FRONT_POINT_POS, Vec3.sub, Vec3.lengthSq]
  norm_num

theorem evalT_d_A : d_A TOP_POINT_POS = -64 := by
  unfold d_A
  rw [evalT_rTopSq, evalT_rLeftSq]
  simp only [TOP_POINT_POS, LEFT_POINT_POS, Vec3.lengthSq]
  norm_num

theorem evalT_d_B : d_B TOP_POINT_POS = -64 := by
  unfold d_B
  rw [evalT_rTopSq, evalT_rFrontSq]
  simp only [TOP_POINT_POS, FRONT_POINT_POS, Vec3.lengthSq]
  norm_num

theorem evalT_L_p0 : L_p0 TOP_POINT_POS = ⟨8/3, 16/3, -8/3⟩ := by
  unfold L_p0 Vec3.divideScalar
  rw [cross_nB_L_dir, cross_L_dir_nA, L_dir_sq_eq, evalT_d_A, evalT_d_B]
  simp only [Vec3.smul, Vec3.add]
  rw [Vec3.ext_iff]
  norm_num

theorem evalT_B : B TOP_POINT_POS = -1024 := by
  unfold B delta_p
  rw [evalT_L_p0, L_dir_eq]
  simp only [TOP_POINT_POS, Vec3.sub, Vec3.dot]
  norm_num

theorem evalT_C : C TOP_POINT_POS = 64/3 := by
  unfold C delta_p
  rw [evalT_L_p0, evalT_rTopSq]
  simp only [TOP_POINT_POS, Vec3.sub, Vec3.lengthSq]
  norm_num

theorem evalT_disc : discriminant TOP_POINT_POS = 0 := by
  unfold discriminant
  rw [evalT_B, evalT_C, A_eq]
  norm_num

theorem evalT_sqrt_disc : sqrt_disc TOP_POINT_POS = 0 := by
  unfold sqrt_disc
  rw [evalT_disc, Real.sqrt_zero]

theorem evalT_t1 : t1 TOP_POINT_POS = 1/24 := by
  unfold t1
  rw [evalT_B, evalT_sqrt_disc, A_eq]
  norm_num

theorem evalT_p1 : p1 TOP_POINT_POS = TOP_POINT_POS := by
  unfold p1
  rw [evalT_L_p0, L_dir_eq, evalT_t1]
  simp only [Vec3.addScaledVector, TOP_POINT_POS]
  rw [Vec3.ext_iff]
  norm_num

theorem evalT_points : intersectionPoints TOP_POINT_POS = [TOP_POINT_POS] := by
  rw [intersectionPoints_eq, evalT_disc,
    if_pos (by norm_num : (0:ℝ) ≥ 0),
    if_neg (by norm_num : ¬ ((0:ℝ) > 1e-6)), evalT_p1]

theorem evalX_rTopSq : rTop ⟨1/200000, 8, 0⟩ * rTop ⟨1/200000, 8, 0⟩
    = 1/40000000000 := by
  rw [rTop_sq]
  simp only [TOP_POINT_POS, Vec3.sub, Vec3.lengthSq]
  norm_num

theorem evalX_rLeftSq : rLeft ⟨1/200000, 8, 0⟩ * rLeft ⟨1/200000, 8, 0⟩
    = 5120003200001/40000000000 := by
  rw [rLeft_sq]
  simp only [LEFT_POINT_POS, Vec3.sub, Vec3.lengthSq]
  norm_num

theorem evalX_rFrontSq : rFront ⟨1/200000, 8, 0⟩ * rFront ⟨1/200000, 8, 0⟩
    = 5120000000001/40000000000 := by
  rw [rFront_sq]
  simp only [FRONT_POINT_POS, Vec3.sub, Vec3.lengthSq]
  norm_num

theorem evalX_d_A : d_A ⟨1/200000, 8, 0⟩ = -1600001/25000 := by
  unfold d_A
  rw [evalX_rTopSq, evalX_rLeftSq]
  simp only [TOP_POINT_POS, LEFT_POINT_POS, Vec3.lengthSq]
  norm_num

theorem evalX_d_B : d_B ⟨1/200000, 8, 0⟩ = -64 := by
  unfold d_B
  rw [evalX_rTopSq, evalX_rFrontSq]
  simp only [TOP_POINT_POS, FRONT_POINT_POS, Vec3.lengthSq]
  norm_num

theorem evalX_L_p0 : L_p0 ⟨1/200000, 8, 0⟩
    = ⟨266667/100000, 1066667/200000, -533333/200000⟩ := by
  unfold L_p0 Vec3.divideScalar
  rw [cross_nB_L_dir, cross_L_dir_nA, L_dir_sq_eq, evalX_d_A, evalX_d_B]
  simp only [Vec3.smul, Vec3.add]
  rw [Vec3.ext_iff]
  norm_num

theorem evalX_B : B ⟨1/200000, 8, 0⟩ = -1024 := by
  unfold B delta_p
  rw [evalX_L_p0, L_dir_eq]
  simp only [TOP_POINT_POS, Vec3.sub, Vec3.dot]
  norm_num

theorem evalX_C : C ⟨1/200000, 8, 0⟩ = 853333333333/40000000000 := by
  unfold C delta_p
  rw [evalX_L_p0, evalX_rTopSq]
  simp only [TOP_POINT_POS, Vec3.sub, Vec3.lengthSq]
  norm_num

theorem evalX_disc : discriminant ⟨1/200000, 8, 0⟩ = 4/9765625 := by
  unfold discriminant
  rw [evalX_B, evalX_C, A_eq]
  norm_num

theorem evalX_sqrt_disc : sqrt_disc ⟨1/200000, 8, 0⟩ = 2/3125 := by
  unfold sqrt_disc
  rw [evalX_disc, show (4/9765625 : ℝ) = (2/3125) ^ 2 by norm_num,
    Real.sqrt_sq (by norm_num : (0:ℝ) ≤ 2/3125)]

theorem evalX_t1 : t1 ⟨1/200000, 8, 0⟩ = 1600001/38400000 := by
  unfold t1
  rw [evalX_B, evalX_sqrt_disc, A_eq]
  norm_num

theorem evalX_p1 : p1 ⟨1/200000, 8, 0⟩
    = ⟨1/600000, 2400001/300000, 1/300000⟩ := by
  unfold p1
  rw [evalX_L_p0, L_dir_eq, evalX_t1]
  simp only [Vec3.addScaledVector]
  rw [Vec3.ext_iff]
  norm_num

theorem evalX_points : intersectionPoints ⟨1/200000, 8, 0⟩
    = [⟨1/600000, 2400001/300000, 1/300000⟩] := by
  rw [intersectionPoints_eq, evalX_disc,
    if_pos (by norm_num : (4/9765625:ℝ) ≥ 0),
    if_neg (by norm_num : ¬ ((4/9765625:ℝ) > 1e-6)), evalX_p1]

/-- The point at parameter `-B/(2*A)` (the spec's claimed tangent
location) at the near-tangent input, in closed form. -/
theorem evalX_claimed_point :
    (L_p0 ⟨1/200000, 8, 0⟩).addScaledVector L_dir
        (-B ⟨1/200000, 8, 0⟩ / (2 * A))
      = ⟨1/300000, 4800001/600000, 1/600000⟩ := by
  rw [evalX_L_p0, L_dir_eq, evalX_B, A_eq]
  simp only [Vec3.addScaledVector]
  rw [Vec3.ext_iff]
  norm_num

end Scene

/-- C6 (amended): with the (always satisfied) non-collinearity guard, the
point count follows the discriminant with the epsilon cut at `1e-6`:
negative discriminant yields no points; `0 ≤ Δ ≤ 1e-6` yields exactly one
point at `t1 = (-B + sqrt Δ)/(2A)` (which equals the spec's `-B/(2A)`
exactly only when `Δ = 0`); `Δ > 1e-6` yields the two points `t1, t2 =
(-B ± sqrt Δ)/(2A)`. -/
theorem discriminant_branches (P : Vec3) :
    (Scene.discriminant P < 0 → Scene.intersectionPoints P = []) ∧
    (0 ≤ Scene.discriminant P → Scene.discriminant P ≤ 1e-6 →
      Scene.intersectionPoints P = [Scene.p1 P]) ∧
    (Scene.discriminant P = 0 → Scene.t1 P = -Scene.B P / (2 * Scene.A)) ∧
    (1e-6 < Scene.discriminant P →
      Scene.intersectionPoints P = [Scene.p1 P, Scene.p2 P]) := by
  refine ⟨?_, ?_, ?_, ?_⟩
  · intro hneg
    rw [Scene.intersectionPoints_eq, if_neg (not_le.mpr hneg)]
  · intro h0 hle
    rw [Scene.intersectionPoints_eq, if_pos h0, if_neg (not_lt.mpr hle)]
  · intro hz
    unfold Scene.t1 Scene.sqrt_disc
    rw [hz, Real.sqrt_zero, add_zero]
  · intro hgt
    rw [Scene.intersectionPoints_eq,
      if_pos (le_of_lt (lt_trans (by norm_num) hgt)), if_pos hgt]

/-- C6 (witness): at the origin the discriminant exceeds the epsilon and
the solver returns the two quadratic-root points. -/
theorem discriminant_branches_witness :
    (1e-6 : ℝ) < Scene.discriminant ⟨0, 0, 0⟩ ∧
    Scene.intersectionPoints ⟨0, 0, 0⟩
      = [Scene.p1 ⟨0, 0, 0⟩, Scene.p2 ⟨0, 0, 0⟩] := by
  have hgt : (1e-6 : ℝ) < Scene.discriminant ⟨0, 0, 0⟩ := by
    rw [Scene.evalO_disc]; norm_num
  exact ⟨hgt, (discriminant_branches ⟨0, 0, 0⟩).2.2.2 hgt⟩

/-- C6 (counterexample): at movable point `(1/200000, 8, 0)` the
discriminant is within the epsilon (`0 < Δ = 4/9765625 ≤ 1e-6`) yet the
single returned point is NOT at the spec's tangent parameter `-B/(2A)`:
the code returns the point at `(-B + sqrt Δ)/(2A)` instead. -/
theorem tangent_location_counterexample :
    0 ≤ Scene.discriminant ⟨1/200000, 8, 0⟩ ∧
    Scene.discriminant ⟨1/200000, 8, 0⟩ ≤ 1e-6 ∧
    Scene.intersectionPoints ⟨1/200000, 8, 0⟩
      ≠ [(Scene.L_p0 ⟨1/200000, 8, 0⟩).addScaledVector Scene.L_dir
          (-Scene.B ⟨1/200000, 8, 0⟩ / (2 * Scene.A))] := by
  refine ⟨by rw [Scene.evalX_disc]; norm_num,
    by rw [Scene.evalX_disc]; norm_num, ?_⟩
  rw [Scene.evalX_points, Scene.evalX_claimed_point]
  intro heq
  injection heq with e _
  have hx := congrArg Vec3.x e
  simp only at hx
  norm_num at hx

/-- C1 (witness): the origin is itself a returned trilateration point for
the movable point at the origin, and its distances to the three anchors
equal the three radii. -/
theorem trilateration_points_on_spheres_witness :
    (⟨0, 0, 0⟩ : Vec3) ∈ Scene.intersectionPoints ⟨0, 0, 0⟩ ∧
    (Scene.TOP_POINT_POS.distanceTo ⟨0, 0, 0⟩ = Scene.rTop ⟨0, 0, 0⟩ ∧
     Scene.LEFT_POINT_POS.distanceTo ⟨0, 0, 0⟩ = Scene.rLeft ⟨0, 0, 0⟩ ∧
     Scene.FRONT_POINT_POS.distanceTo ⟨0, 0, 0⟩ = Scene.rFront ⟨0, 0, 0⟩) := by
  have hmem : (⟨0, 0, 0⟩ : Vec3) ∈ Scene.intersectionPoints ⟨0, 0, 0⟩ := by
    rw [Scene.evalO_points]
    simp
  exact ⟨hmem, trilateration_points_on_spheres ⟨0, 0, 0⟩ ⟨0, 0, 0⟩ hmem⟩

/-- C4 (witness): at the origin the circle exists, its radius is positive,
and the concrete circle point in direction `(0,0,1)` (a unit vector
orthogonal to the plane normal) lies on both spheres. -/
theorem circle_exists_sound_witness :
    (Scene.intersectionCircle ⟨0, 0, 0⟩).exists' = true ∧
    0 < (Scene.intersectionCircle ⟨0, 0, 0⟩).radius ∧
    Scene.TOP_POINT_POS.distanceTo
        (((Scene.intersectionCircle ⟨0, 0, 0⟩).center).add
          (Vec3.smul ((Scene.intersectionCircle ⟨0, 0, 0⟩).radius)
            ⟨0, 0, 1⟩)) = Scene.rTop ⟨0, 0, 0⟩ ∧
    Scene.LEFT_POINT_POS.distanceTo
        (((Scene.intersectionCircle ⟨0, 0, 0⟩).center).add
          (Vec3.smul ((Scene.intersectionCircle ⟨0, 0, 0⟩).radius)
            ⟨0, 0, 1⟩)) = Scene.rLeft ⟨0, 0, 0⟩ := by
  have hex := Scene.evalO_circle_exists
  have hc := (Scene.circle_exists_iff ⟨0, 0, 0⟩).mp hex
  have hu1 : (⟨0, 0, 1⟩ : Vec3).lengthSq = 1 := by
    unfold Vec3.lengthSq; norm_num
  have hu2 : (⟨0, 0, 1⟩ : Vec3).dot
      (Scene.intersectionCircle ⟨0, 0, 0⟩).planeNormal = 0 := by
    rw [Scene.circle_pos_eq _ hc]
    dsimp only
    rw [Scene.dir_eq]
    unfold Vec3.dot
    norm_num
  obtain ⟨hmem1, hmem2⟩ :=
    (circle_exists_sound ⟨0, 0, 0⟩ hex).2.2 ⟨0, 0, 1⟩ hu1 hu2
  exact ⟨hex, (circle_exists_sound ⟨0, 0, 0⟩ hex).1, hmem1, hmem2⟩

/-- C5 (witness for the amended claim): at the origin the circle exists
and its center lies on the line through the two sphere centers. -/
theorem circle_center_on_center_line_witness :
    (Scene.intersectionCircle ⟨0, 0, 0⟩).exists' = true ∧
    ∃ t : ℝ, (Scene.intersectionCircle ⟨0, 0, 0⟩).center
      = Scene.TOP_POINT_POS.add
          (Vec3.smul t (Scene.LEFT_POINT_POS.sub Scene.TOP_POINT_POS)) :=
  ⟨Scene.evalO_circle_exists,
    circle_center_on_center_line ⟨0, 0, 0⟩ Scene.evalO_circle_exists⟩

/-- C7 (witness): at the origin the solver returns exactly the two
distinct points `(-16/3, 16/3, 16/3)` and `(0, 0, 0)`. -/
theorem points_length_le_two_witness :
    Scene.intersectionPoints ⟨0, 0, 0⟩
      = [⟨-16/3, 16/3, 16/3⟩, ⟨0, 0, 0⟩] ∧
    (⟨-16/3, 16/3, 16/3⟩ : Vec3) ≠ (⟨0, 0, 0⟩ : Vec3) :=
  ⟨Scene.evalO_points,
    (points_length_le_two ⟨0, 0, 0⟩).2 _ _ Scene.evalO_points⟩

/-- C8 (witness): two invocations at the origin agree. -/
theorem engine_deterministic_witness :
    Scene.computeGeometry ⟨0, 0, 0⟩ = Scene.computeGeometry ⟨0, 0, 0⟩ :=
  engine_deterministic ⟨0, 0, 0⟩ ⟨0, 0, 0⟩ rfl

/-- C9 (witness): with the movable point on the top anchor, the top anchor
itself is returned by the solver, the divisors are nonzero, and the
returned point coincides with the anchor. -/
theorem zero_radius_sphere_safe_witness :
    Scene.TOP_POINT_POS ∈ Scene.intersectionPoints Scene.TOP_POINT_POS ∧
    (2 * Scene.d_12 ≠ 0 ∧ Scene.L_dir_sq ≠ 0 ∧ 2 * Scene.A ≠ 0 ∧
      Scene.TOP_POINT_POS = Scene.TOP_POINT_POS) := by
  have hmem : Scene.TOP_POINT_POS ∈ Scene.intersectionPoints
      Scene.TOP_POINT_POS := by
    rw [Scene.evalT_points]
    simp
  exact ⟨hmem,
    zero_radius_sphere_safe Scene.TOP_POINT_POS (Or.inl rfl)
      Scene.TOP_POINT_POS hmem⟩
